import Mathlib

/-!
Verification of the Tacotron2 orchestrator module (`model/tacotron_old.py`).

Tensors are modelled as nested lists of rationals: a 3-D tensor of shape
(batch, channel, time) is a `List (List (List ℚ))`, a 2-D tensor is a
`List (List ℚ)`.  The external collaborator networks (Encoder, Decoder,
Postnet) and the helper collaborators (`mode`, `get_mask_from_lengths`,
`text_to_sequence`, the torch RNG) live in repository files outside the
source under verification; they are modelled from the specification as
opaque function parameters or as small definitions carrying a
`Modelled from the spec:` doc comment.
-/

/-- A 3-D tensor (batch × channel × time) of rational values. -/
abbrev T3 := List (List (List ℚ))

/-- A 2-D tensor (batch × time) of rational values. -/
abbrev T2 := List (List ℚ)

/-- Value of a 3-D tensor at indices `(b, c, t)`, with default `0` out of range. -/
def entry3 (x : T3) (b c t : Nat) : ℚ :=
  ((x.getD b []).getD c []).getD t 0

/-- Value of a 2-D tensor at indices `(b, t)`, with default `0` out of range. -/
def entry2 (x : T2) (b t : Nat) : ℚ :=
  (x.getD b []).getD t 0

/-- Boolean value of a 3-D mask at indices `(b, c, t)`, default `false`. -/
def entryB3 (m : List (List (List Bool))) (b c t : Nat) : Bool :=
  ((m.getD b []).getD c []).getD t false

/-- Boolean value of a 2-D mask at indices `(b, t)`, default `false`. -/
def entryB2 (m : List (List Bool)) (b t : Nat) : Bool :=
  (m.getD b []).getD t false

/-- Shape predicate for a 2-D tensor: `b` rows, each of length `t`. -/
def Shape2 (x : T2) (b t : Nat) : Prop :=
  x.length = b ∧ ∀ r ∈ x, r.length = t

/-- Shape predicate for a 3-D tensor: `b` planes of `c` rows of length `t`. -/
def Shape3 (x : T3) (b c t : Nat) : Prop :=
  x.length = b ∧ ∀ p ∈ x, p.length = c ∧ ∀ r ∈ p, r.length = t

instance (x : T2) (b t : Nat) : Decidable (Shape2 x b t) := by
  unfold Shape2; infer_instance

instance (x : T3) (b c t : Nat) : Decidable (Shape3 x b c t) := by
  unfold Shape3; infer_instance

/-- Modelled from the spec: the device-placement collaborator `mode`
(`utils/util.py`, not under `src/`) moves/casts a tensor to the execution
device; at the level of values it is the identity. -/
def mode {α : Type} (x : α) : α := x

/-- Elementwise `torch.Tensor.masked_fill_` on one row: positions where the
mask is `true` are replaced by `v`. -/
def masked_fill1 (row : List ℚ) (m : List Bool) (v : ℚ) : List ℚ :=
  List.zipWith (fun a mb => if mb then v else a) row m

/-- Elementwise `masked_fill_` on a 2-D tensor. -/
def masked_fill2 (x : T2) (m : List (List Bool)) (v : ℚ) : T2 :=
  List.zipWith (fun r mr => masked_fill1 r mr v) x m

/-- Elementwise `masked_fill_` on a 3-D tensor. -/
def masked_fill3 (x : T3) (m : List (List (List Bool))) (v : ℚ) : T3 :=
  List.zipWith (fun p mp => masked_fill2 p mp v) x m

/-- Elementwise addition of two 3-D tensors (`torch` `+` on same-shape tensors). -/
def addT3 (x y : T3) : T3 :=
  List.zipWith (fun p q => List.zipWith (fun r w => List.zipWith (· + ·) r w) p q) x y

/-- Transpose of a 2-D matrix (rows become columns), used to model
`Tensor.transpose(1, 2)` on each batch element. -/
def transposeMat (m : T2) : T2 :=
  (List.range (m.headD []).length).map (fun j => m.map (fun row => row.getD j 0))

/-- Model of `Tensor.transpose(1, 2)` on a (batch, a, b) tensor. -/
def transpose12 (x : T3) : T3 := x.map transposeMat

/-- Maximum of a list of natural numbers (model of `torch.max` over a
length vector; the torch call requires a nonempty tensor). -/
def maxNat (l : List Nat) : Nat := l.foldr Nat.max 0

/-- Modelled from the spec: time size of the padding mask produced by the
length-to-mask collaborator; the `pad` flag rounds the batch-maximum length
up to a multiple of the decoder frame step so that the mask matches the
decoder's frame-group output length. -/
def maskTime (lengths : List Nat) (pad : Bool) (stride : Nat) : Nat :=
  if pad && (maxNat lengths % stride != 0) then
    maxNat lengths + (stride - maxNat lengths % stride)
  else
    maxNat lengths

/-- Modelled from the spec: the length-to-mask collaborator
`utils.util.get_mask_from_lengths` (repository file `utils/util.py`, not
under `src/`).  It builds a boolean padding mask from a length vector:
entry `(b, t)` is `true` exactly when `t` is a valid (non-padded) position,
i.e. `t < lengths[b]`, over a time axis of size `maskTime`. -/
def get_mask_from_lengths (lengths : List Nat) (pad : Bool) (stride : Nat) :
    List (List Bool) :=
  lengths.map (fun l => (List.range (maskTime lengths pad stride)).map (fun t => decide (t < l)))

/-- Model of `mask.expand(C, B, T).permute(1, 0, 2)`: each batch row of the
2-D mask is replicated across `c` channels. -/
def expandMask (m : List (List Bool)) (c : Nat) : List (List (List Bool)) :=
  m.map (fun row => List.replicate c row)

/-- Model of the advanced indexing `mask[:, 0, ·]`: channel 0 of a 3-D mask. -/
def maskChannel0 (m : List (List (List Bool))) : List (List Bool) :=
  m.map (fun chans => chans.headD [])

/-- Model of indexing a row at `torch.arange(0, row.length, s)`: the entries
at time positions `0, s, 2s, …`. -/
def strideSelect (row : List Bool) (s : Nat) : List Bool :=
  (List.range ((row.length + s - 1) / s)).map (fun i => row.getD (i * s) false)

/-- Modelled from the spec: stable descending insertion of one element, the
building block of `torch.sort(…, descending=True)` on a length vector. -/
def insertDesc (a : Nat) : List Nat → List Nat
  | [] => [a]
  | b :: t => if b < a then a :: b :: t else b :: insertDesc a t

/-- Modelled from the spec: the values component of
`torch.sort(…, dim=0, descending=True)` on a length vector. -/
def sortDesc : List Nat → List Nat
  | [] => []
  | a :: t => insertDesc a (sortDesc t)

/-- Modelled from the spec: `torch.max(t).item()` on a 1-D integer tensor
(defined here on the nonempty lists the call site supplies). -/
def torch_max (l : List Int) : Int := l.foldl max (l.headD 0)

/-- Modelled from the spec: the weight matrix built by `nn.Embedding` and
then refilled by the torch RNG call `uniform_(-val, val)` (torch internals,
not under `src/`).  The sampler is abstract; its range contract is stated
as a hypothesis where needed.  Entry `(i, j)` of the
`n_symbols × symbols_embedding_dim` table is `sample i j`. -/
def init_embedding (n d : Nat) {α : Type} (sample : Nat → Nat → α) : List (List α) :=
  (List.range n).map (fun i => (List.range d).map (fun j => sample i j))

/-- The `Tacotron2` module state: the hyperparameters read in `__init__`
(`num_mels`, `mask_padding`, `n_frames_per_step`), the embedding weight
table, and the collaborator networks.  The Encoder, Decoder and Postnet
live in `model/model.py` (not under `src/`) and are modelled from the spec
as opaque functions with the call signatures used by this module. -/
structure Tacotron2 where
  num_mels : Nat
  mask_padding : Bool
  n_frames_per_step : Nat
  embedding : List (List ℚ)
  encoder : T3 → List Nat → T3
  decoder : T3 → T3 → List Nat → T3 × T2 × T3
  postnet : T3 → T3
  encoder_inference : T3 → T3
  decoder_inference : T3 → T3 × T2 × T3

/-- The four tensors handed to / returned by `parse_output`:
`[mel_outputs, mel_outputs_postnet, gate_outputs, alignments]`. -/
structure TacoOutputs where
  mel : T3
  melPost : T3
  gate : T2
  align : T3
deriving DecidableEq

/-- Model of `nn.Embedding.__call__`: per-batch, per-position lookup of the
symbol id's row in the weight table. -/
def Tacotron2.embed (self : Tacotron2) (ids : List (List Nat)) : T3 :=
  ids.map (fun s => s.map (fun i => self.embedding.getD i []))

/-- The 3-D mel mask of `parse_output`:
`~get_mask_from_lengths(output_lengths, True)` expanded over the mel
channels and permuted to `(B, num_mels, T)`. -/
def Tacotron2.melMask (self : Tacotron2) (lens : List Nat) : List (List (List Bool)) :=
  expandMask
    ((get_mask_from_lengths lens true self.n_frames_per_step).map (fun r => r.map not))
    self.num_mels

/-- The 2-D gate mask of `parse_output`: `mask[:, 0, slice]` with
`slice = torch.arange(0, mask.size(2), n_frames_per_step)`. -/
def Tacotron2.gateMask (self : Tacotron2) (lens : List Nat) : List (List Bool) :=
  (maskChannel0 (self.melMask lens)).map (fun row => strideSelect row self.n_frames_per_step)

/-- `Tacotron2.parse_output`: when the padding-mask flag is on and lengths
are supplied, fill the padded positions of the raw and postnet mels with
`0.0` and the padded frame-group positions of the gate with `1e3`;
otherwise return the outputs unchanged. -/
def Tacotron2.parse_output (self : Tacotron2) (outputs : TacoOutputs)
    (output_lengths : Option (List Nat) := none) : TacoOutputs :=
  match output_lengths with
  | some lens =>
      if self.mask_padding then
        { mel := masked_fill3 outputs.mel (self.melMask lens) 0
          melPost := masked_fill3 outputs.melPost (self.melMask lens) 0
          gate := masked_fill2 outputs.gate (self.gateMask lens) 1000
          align := outputs.align }
      else outputs
  | none => outputs

/-- `Tacotron2.parse_batch`: destructure the training batch 5-tuple, coerce
types and device placement (`mode`, `.long()`, `.float()` — value-level
identities in this model), compute the batch-maximum input length, and
restructure into an `(inputs, targets)` pair. -/
def Tacotron2.parse_batch (_self : Tacotron2)
    (batch : List (List Int) × List Int × T3 × T2 × List Int) :
    (List (List Int) × List Int × T3 × Int × List Int) × (T3 × T2) :=
  let text_padded := mode batch.1
  let input_lengths := mode batch.2.1
  let max_len := torch_max input_lengths
  let mel_padded := mode batch.2.2.1
  let gate_padded := mode batch.2.2.2.1
  let output_lengths := mode batch.2.2.2.2
  ((text_padded, input_lengths, mel_padded, max_len, output_lengths),
   (mel_padded, gate_padded))

/-- `Tacotron2.forward` on the restructured inputs 5-tuple
`(text_inputs, text_lengths, mels, max_len, output_lengths)`: embed,
transpose, encode, decode teacher-forced, add the postnet residual, and
mask via `parse_output` with the output lengths. -/
def Tacotron2.forward (self : Tacotron2)
    (inputs : List (List Nat) × List Nat × T3 × Nat × List Nat) : TacoOutputs :=
  let text_inputs := inputs.1
  let text_lengths := inputs.2.1
  let mels := inputs.2.2.1
  let output_lengths := inputs.2.2.2.2
  let embedded_inputs := transpose12 (self.embed text_inputs)
  let encoder_outputs := self.encoder embedded_inputs text_lengths
  let dec := self.decoder encoder_outputs mels text_lengths
  let mel_outputs_postnet := addT3 dec.1 (self.postnet dec.1)
  self.parse_output ⟨dec.1, mel_outputs_postnet, dec.2.1, dec.2.2⟩ (some output_lengths)

/-- `Tacotron2.inference`: the free-running pipeline; `parse_output` is
called without lengths. -/
def Tacotron2.inference (self : Tacotron2) (inputs : List (List Nat)) : TacoOutputs :=
  let embedded_inputs := transpose12 (self.embed inputs)
  let encoder_outputs := self.encoder_inference embedded_inputs
  let dec := self.decoder_inference encoder_outputs
  let mel_outputs_postnet := addT3 dec.1 (self.postnet dec.1)
  self.parse_output ⟨dec.1, mel_outputs_postnet, dec.2.1, dec.2.2⟩

/-- `Tacotron2.teacher_infer`: derive the text lengths by sorting the
per-sequence lengths descending, then run the teacher-forced pipeline;
`parse_output` is called without lengths. -/
def Tacotron2.teacher_infer (self : Tacotron2) (inputs : List (List Nat)) (mels : T3) :
    TacoOutputs :=
  let il := sortDesc (inputs.map List.length)
  let text_lengths := mode il
  let embedded_inputs := transpose12 (self.embed inputs)
  let encoder_outputs := self.encoder embedded_inputs text_lengths
  let dec := self.decoder encoder_outputs mels text_lengths
  let mel_outputs_postnet := addT3 dec.1 (self.postnet dec.1)
  self.parse_output ⟨dec.1, mel_outputs_postnet, dec.2.1, dec.2.2⟩

/-- `Tacotron2.infer`: convert the text through the text-to-sequence
collaborator (`text/`, not under `src/`, modelled from the spec as an
opaque function `tts`), wrap as a length-1 batch, run `inference`, and
return the triple (mel, mel+postnet, alignments), dropping the gate. -/
def Tacotron2.infer (self : Tacotron2) (tts : String → List Nat) (text : String) :
    T3 × T3 × T3 :=
  let sequence := tts text
  let sequenceB := mode [sequence]
  let o := self.inference sequenceB
  (o.mel, o.melPost, o.align)

/-! ### Indexing helper lemmas -/

theorem zipWith_getD {α β γ : Type} (f : α → β → γ) (x : List α) (y : List β)
    (i : Nat) (dx : α) (dy : β) (dz : γ) (hx : i < x.length) (hy : i < y.length) :
    (List.zipWith f x y).getD i dz = f (x.getD i dx) (y.getD i dy) := by
  induction x generalizing y i with
  | nil => simp at hx
  | cons a x ih =>
    cases y with
    | nil => simp at hy
    | cons b y =>
      cases i with
      | zero => rfl
      | succ i =>
        simp only [List.zipWith_cons_cons, List.getD_cons_succ]
        exact ih y i (by simpa using hx) (by simpa using hy)

theorem map_getD {α β : Type} (f : α → β) (x : List α) (i : Nat) (dx : α) (db : β)
    (h : i < x.length) :
    (x.map f).getD i db = f (x.getD i dx) := by
  induction x generalizing i with
  | nil => simp at h
  | cons a x ih =>
    cases i with
    | zero => rfl
    | succ i =>
      simp only [List.map_cons, List.getD_cons_succ]
      exact ih i (by simpa using h)

theorem range_getD (n i d : Nat) (h : i < n) : (List.range n).getD i d = i := by
  rw [List.getD_eq_getElem _ _ (by simpa using h)]
  simp

theorem replicate_getD {α : Type} (n i : Nat) (a d : α) (h : i < n) :
    (List.replicate n a).getD i d = a := by
  induction n generalizing i with
  | zero => omega
  | succ m ih =>
    cases i with
    | zero => rfl
    | succ i =>
      simp only [List.replicate_succ, List.getD_cons_succ]
      exact ih i (by omega)

theorem replicate_headD {α : Type} (n : Nat) (a : α) (d : α) (h : 0 < n) :
    (List.replicate n a).headD d = a := by
  cases n with
  | zero => omega
  | succ m => rfl

theorem mem_zipWith {α β γ : Type} {f : α → β → γ} :
    ∀ {x : List α} {y : List β} {c : γ}, c ∈ List.zipWith f x y →
      ∃ a b, a ∈ x ∧ b ∈ y ∧ c = f a b := by
  intro x
  induction x with
  | nil => intro y c h; simp at h
  | cons a x ih =>
    intro y c h
    cases y with
    | nil => simp at h
    | cons b y =>
      simp only [List.zipWith_cons_cons, List.mem_cons] at h
      rcases h with h | h
      · exact ⟨a, b, by simp, by simp, h⟩
      · rcases ih h with ⟨a', b', ha, hb, hc⟩
        exact ⟨a', b', by simp [ha], by simp [hb], hc⟩

/-! ### Arithmetic helper lemmas -/

theorem lt_ceilDiv_iff (s k w : Nat) (hs : 0 < s) :
    k < (w + s - 1) / s ↔ k * s < w := by
  rw [Nat.lt_iff_add_one_le, Nat.le_div_iff_mul_le hs, Nat.add_mul, Nat.one_mul]
  omega

theorem maskTime_dvd (lens : List Nat) (s : Nat) (hs : 0 < s) :
    s ∣ maskTime lens true s := by
  unfold maskTime
  by_cases h : maxNat lens % s = 0
  · simp only [h, bne_self_eq_false, Bool.and_false, Bool.false_eq_true, if_false]
    exact Nat.dvd_of_mod_eq_zero h
  · have h1 := Nat.mod_le (maxNat lens) s
    have h2 := Nat.mod_lt (maxNat lens) hs
    have h3 : s ∣ maxNat lens - maxNat lens % s := Nat.dvd_sub_mod _
    have h4 : maxNat lens + (s - maxNat lens % s) = (maxNat lens - maxNat lens % s) + s := by
      omega
    rw [if_pos (by simpa using h), h4]
    exact Nat.dvd_add h3 (Nat.dvd_refl s)

theorem ceilDiv_of_dvd (s w : Nat) (hs : 0 < s) (h : s ∣ w) :
    (w + s - 1) / s = w / s := by
  rcases h with ⟨q, rfl⟩
  rcases Nat.eq_zero_or_pos q with hq | hq
  · subst hq
    have h0 : (s * 0 + s - 1) / s = 0 := Nat.div_eq_of_lt (by omega)
    have h1 : s * 0 / s = 0 := by simp
    rw [h0, h1]
  · have h7 : s * q = q * s := Nat.mul_comm s q
    have hrhs : s * q / s = q := by rw [Nat.mul_div_cancel_left _ hs]
    rw [hrhs]
    apply Nat.le_antisymm
    · have hlt : s * q + s - 1 < (q + 1) * s := by
        rw [Nat.add_mul, Nat.one_mul]
        omega
      exact Nat.lt_succ_iff.mp ((Nat.div_lt_iff_lt_mul hs).mpr hlt)
    · rw [Nat.le_div_iff_mul_le hs]
      omega

/-! ### Mask entry lemmas -/

/-- The negated validity row used by `parse_output` for an item of length `l`
over a time axis of size `w`. -/
def negRow (w l : Nat) : List Bool :=
  ((List.range w).map (fun t => decide (t < l))).map not

theorem negRow_length (w l : Nat) : (negRow w l).length = w := by
  simp [negRow]

theorem negRow_getD (w l t : Nat) (ht : t < w) :
    (negRow w l).getD t false = decide (l ≤ t) := by
  unfold negRow
  rw [map_getD _ _ t false _ (by simpa using ht),
    map_getD _ _ t 0 _ (by simpa using ht), range_getD _ _ _ ht]
  rcases Nat.lt_or_ge t l with h | h
  · simp [h, Nat.not_le_of_lt h]
  · simp [h, Nat.not_lt_of_le h]

theorem melMask_length (self : Tacotron2) (lens : List Nat) :
    (self.melMask lens).length = lens.length := by
  simp [Tacotron2.melMask, expandMask, get_mask_from_lengths]

theorem melMask_getD (self : Tacotron2) (lens : List Nat) (b : Nat)
    (hb : b < lens.length) :
    (self.melMask lens).getD b [] =
      List.replicate self.num_mels
        (negRow (maskTime lens true self.n_frames_per_step) (lens.getD b 0)) := by
  unfold Tacotron2.melMask expandMask get_mask_from_lengths negRow
  rw [map_getD _ _ b [] _ (by simpa using hb),
    map_getD _ _ b [] _ (by simpa using hb),
    map_getD _ _ b 0 _ (by simpa using hb)]

theorem gateMask_length (self : Tacotron2) (lens : List Nat) :
    (self.gateMask lens).length = lens.length := by
  simp [Tacotron2.gateMask, maskChannel0, melMask_length]

theorem gateMask_getD (self : Tacotron2) (lens : List Nat) (b : Nat)
    (hb : b < lens.length) (hnm : 0 < self.num_mels) :
    (self.gateMask lens).getD b [] =
      strideSelect (negRow (maskTime lens true self.n_frames_per_step) (lens.getD b 0))
        self.n_frames_per_step := by
  unfold Tacotron2.gateMask maskChannel0
  rw [map_getD _ _ b [] _ (by simp [melMask_length]; omega),
    map_getD _ _ b [] _ (by simp [melMask_length]; omega),
    melMask_getD self lens b hb, replicate_headD _ _ _ hnm]

theorem strideSelect_length (row : List Bool) (s : Nat) :
    (strideSelect row s).length = (row.length + s - 1) / s := by
  simp [strideSelect]

theorem strideSelect_getD (row : List Bool) (s k : Nat) (hs : 0 < s)
    (hk : k * s < row.length) :
    (strideSelect row s).getD k false = row.getD (k * s) false := by
  unfold strideSelect
  have hk2 : k < (row.length + s - 1) / s := (lt_ceilDiv_iff _ _ _ hs).mpr hk
  rw [map_getD _ _ k 0 _ (by simpa using hk2), range_getD _ _ _ hk2]

theorem masked_fill3_entry (x : T3) (m : List (List (List Bool))) (v : ℚ) (b c t : Nat)
    (hbx : b < x.length) (hbm : b < m.length)
    (hcx : c < (x.getD b []).length) (hcm : c < (m.getD b []).length)
    (htx : t < ((x.getD b []).getD c []).length)
    (htm : t < ((m.getD b []).getD c []).length) :
    entry3 (masked_fill3 x m v) b c t = if entryB3 m b c t then v else entry3 x b c t := by
  unfold masked_fill3 masked_fill2 masked_fill1 entry3 entryB3
  rw [zipWith_getD _ x m b [] [] [] hbx hbm,
    zipWith_getD _ _ _ c [] [] [] hcx hcm,
    zipWith_getD _ _ _ t 0 false 0 htx htm]

theorem masked_fill2_entry (x : T2) (m : List (List Bool)) (v : ℚ) (b t : Nat)
    (hbx : b < x.length) (hbm : b < m.length)
    (htx : t < (x.getD b []).length) (htm : t < (m.getD b []).length) :
    entry2 (masked_fill2 x m v) b t = if entryB2 m b t then v else entry2 x b t := by
  unfold masked_fill2 masked_fill1 entry2 entryB2
  rw [zipWith_getD _ x m b [] [] [] hbx hbm,
    zipWith_getD _ _ _ t 0 false 0 htx htm]

/-! ### Claim theorems -/

/-- C1: when the padding-mask flag is enabled and output lengths are
supplied, `parse_output` sets every raw-mel and postnet-mel value of batch
item `b` at every in-range time position `t ≥ lens[b]` to exactly `0.0`,
and sets the gate value at every masked frame-group position `k` (whose
time position `k * n_frames_per_step` falls at or beyond `lens[b]`) to the
literal sentinel `1e3 = 1000`. -/
theorem parse_output_masks_padded_positions (self : Tacotron2) (o : TacoOutputs)
    (lens : List Nat) (b c t k : Nat)
    (hmask : self.mask_padding = true)
    (hs : 0 < self.n_frames_per_step)
    (hnm : 0 < self.num_mels)
    (hb : b < lens.length)
    (hcm : c < self.num_mels)
    (hbm : b < o.mel.length)
    (hcml : c < (o.mel.getD b []).length)
    (htm : t < ((o.mel.getD b []).getD c []).length)
    (hbp : b < o.melPost.length)
    (hcpl : c < (o.melPost.getD b []).length)
    (htp : t < ((o.melPost.getD b []).getD c []).length)
    (hbg : b < o.gate.length)
    (hkg : k < (o.gate.getD b []).length)
    (htW : t < maskTime lens true self.n_frames_per_step)
    (hkW : k * self.n_frames_per_step < maskTime lens true self.n_frames_per_step)
    (hLt : lens.getD b 0 ≤ t)
    (hLk : lens.getD b 0 ≤ k * self.n_frames_per_step) :
    entry3 (self.parse_output o (some lens)).mel b c t = 0 ∧
    entry3 (self.parse_output o (some lens)).melPost b c t = 0 ∧
    entry2 (self.parse_output o (some lens)).gate b k = 1000 := by
  have hpo : self.parse_output o (some lens) =
      { mel := masked_fill3 o.mel (self.melMask lens) 0
        melPost := masked_fill3 o.melPost (self.melMask lens) 0
        gate := masked_fill2 o.gate (self.gateMask lens) 1000
        align := o.align } := by
    simp [Tacotron2.parse_output, hmask]
  have hrow := melMask_getD self lens b hb
  have hbm' : b < (self.melMask lens).length := by rw [melMask_length]; exact hb
  have hcm' : c < ((self.melMask lens).getD b []).length := by
    rw [hrow, List.length_replicate]; exact hcm
  have htm' : t < (((self.melMask lens).getD b []).getD c []).length := by
    rw [hrow, replicate_getD _ _ _ _ hcm, negRow_length]; exact htW
  have hmaskval : entryB3 (self.melMask lens) b c t = true := by
    unfold entryB3
    rw [hrow, replicate_getD _ _ _ _ hcm, negRow_getD _ _ _ htW]
    simpa using hLt
  have hgrow := gateMask_getD self lens b hb hnm
  have hbg' : b < (self.gateMask lens).length := by rw [gateMask_length]; exact hb
  have hkg' : k < ((self.gateMask lens).getD b []).length := by
    rw [hgrow, strideSelect_length, negRow_length]
    exact (lt_ceilDiv_iff _ _ _ hs).mpr hkW
  have hgval : entryB2 (self.gateMask lens) b k = true := by
    unfold entryB2
    rw [hgrow, strideSelect_getD _ _ _ hs (by rw [negRow_length]; exact hkW),
      negRow_getD _ _ _ hkW]
    simpa using hLk
  refine ⟨?_, ?_, ?_⟩
  · rw [hpo]
    show entry3 (masked_fill3 o.mel (self.melMask lens) 0) b c t = 0
    rw [masked_fill3_entry _ _ _ _ _ _ hbm hbm' hcml hcm' htm htm', hmaskval]
    simp
  · rw [hpo]
    show entry3 (masked_fill3 o.melPost (self.melMask lens) 0) b c t = 0
    rw [masked_fill3_entry _ _ _ _ _ _ hbp hbm' hcpl hcm' htp htm', hmaskval]
    simp
  · rw [hpo]
    show entry2 (masked_fill2 o.gate (self.gateMask lens) 1000) b k = 1000
    rw [masked_fill2_entry _ _ _ _ _ hbg hbg' hkg hkg', hgval]
    simp

/-- Witness for C1 at a concrete model, output tuple and lengths: batch
item 1 has valid length 0, so its mel values at time 0 become 0 and its
gate value at frame group 0 becomes 1000. -/
theorem parse_output_masks_padded_positions_witness :
    entry3 (Tacotron2.parse_output
      { num_mels := 1, mask_padding := true, n_frames_per_step := 2,
        embedding := [], encoder := fun x _ => x,
        decoder := fun _ _ _ => ([], [], []), postnet := fun x => x,
        encoder_inference := fun x => x, decoder_inference := fun _ => ([], [], []) }
      { mel := [[[1, 1]], [[1, 1]]], melPost := [[[2, 2]], [[2, 2]]],
        gate := [[3], [4]], align := [[[0]]] }
      (some [2, 0])).mel 1 0 0 = 0 ∧
    entry3 (Tacotron2.parse_output
      { num_mels := 1, mask_padding := true, n_frames_per_step := 2,
        embedding := [], encoder := fun x _ => x,
        decoder := fun _ _ _ => ([], [], []), postnet := fun x => x,
        encoder_inference := fun x => x, decoder_inference := fun _ => ([], [], []) }
      { mel := [[[1, 1]], [[1, 1]]], melPost := [[[2, 2]], [[2, 2]]],
        gate := [[3], [4]], align := [[[0]]] }
      (some [2, 0])).melPost 1 0 0 = 0 ∧
    entry2 (Tacotron2.parse_output
      { num_mels := 1, mask_padding := true, n_frames_per_step := 2,
        embedding := [], encoder := fun x _ => x,
        decoder := fun _ _ _ => ([], [], []), postnet := fun x => x,
        encoder_inference := fun x => x, decoder_inference := fun _ => ([], [], []) }
      { mel := [[[1, 1]], [[1, 1]]], melPost := [[[2, 2]], [[2, 2]]],
        gate := [[3], [4]], align := [[[0]]] }
      (some [2, 0])).gate 1 0 = 1000 := by
  exact parse_output_masks_padded_positions _ _ [2, 0] 1 0 0 0 rfl (by decide)
    (by decide) (by decide) (by decide) (by decide) (by decide) (by decide)
    (by decide) (by decide) (by decide) (by decide) (by decide) (by decide)
    (by decide) (by decide) (by decide)

/-- C2: whenever the padding-mask flag is disabled or the output-lengths
argument is omitted, `parse_output` returns its outputs argument
unchanged. -/
theorem parse_output_identity_when_unmasked (self : Tacotron2) (o : TacoOutputs)
    (ol : Option (List Nat)) (h : self.mask_padding = false ∨ ol = none) :
    self.parse_output o ol = o := by
  cases ol with
  | none => rfl
  | some lens =>
    rcases h with h | h
    · simp [Tacotron2.parse_output, h]
    · exact absurd h (by simp)

/-- Witness for C2: a model with masking disabled returns a concrete
outputs tuple unchanged even when lengths are supplied. -/
theorem parse_output_identity_when_unmasked_witness :
    Tacotron2.parse_output
      { num_mels := 1, mask_padding := false, n_frames_per_step := 1,
        embedding := [], encoder := fun x _ => x,
        decoder := fun _ _ _ => ([], [], []), postnet := fun x => x,
        encoder_inference := fun x => x, decoder_inference := fun _ => ([], [], []) }
      { mel := [[[1, 2]]], melPost := [[[3, 4]]], gate := [[5]], align := [[[6]]] }
      (some [1]) =
      { mel := [[[1, 2]]], melPost := [[[3, 4]]], gate := [[5]], align := [[[6]]] } := by
  exact parse_output_identity_when_unmasked _ _ _ (Or.inl rfl)

/-- C10: `parse_output` returns the alignment matrix unchanged in every
case; when masking applies it changes exactly the first three components
of its argument to their masked versions (the in-place
`.data.masked_fill_` mutation of the Python code is modelled here by the
returned value being the argument with those three fields updated), and
otherwise it returns the argument unchanged. -/
theorem parse_output_frame_effect (self : Tacotron2) (o : TacoOutputs)
    (ol : Option (List Nat)) :
    (self.parse_output o ol).align = o.align ∧
    (self.mask_padding = true → ∀ lens, ol = some lens →
      self.parse_output o ol =
        { mel := masked_fill3 o.mel (self.melMask lens) 0
          melPost := masked_fill3 o.melPost (self.melMask lens) 0
          gate := masked_fill2 o.gate (self.gateMask lens) 1000
          align := o.align }) ∧
    ((self.mask_padding = false ∨ ol = none) → self.parse_output o ol = o) := by
  cases ol with
  | none =>
    refine ⟨rfl, ?_, fun _ => rfl⟩
    intro _ lens h
    exact absurd h (by simp)
  | some lens =>
    by_cases hm : self.mask_padding
    · refine ⟨?_, ?_, ?_⟩
      · simp [Tacotron2.parse_output, hm]
      · intro _ l hl
        obtain rfl : lens = l := by injection hl
        simp [Tacotron2.parse_output, hm]
      · intro h
        rcases h with h | h
        · rw [hm] at h
          exact absurd h (by simp)
        · exact absurd h (by simp)
    · have hm' : self.mask_padding = false := by simpa using hm
      refine ⟨?_, ?_, fun _ => ?_⟩
      · simp [Tacotron2.parse_output, hm']
      · intro h
        rw [hm'] at h
        exact absurd h (by simp)
      · simp [Tacotron2.parse_output, hm']

/-- Witness for C10 at concrete inputs: the alignment matrix passes
through, the masking branch rewrites exactly the first three fields, and
the disabled branch is the identity. -/
theorem parse_output_frame_effect_witness :
    (Tacotron2.parse_output
      { num_mels := 1, mask_padding := true, n_frames_per_step := 1,
        embedding := [], encoder := fun x _ => x,
        decoder := fun _ _ _ => ([], [], []), postnet := fun x => x,
        encoder_inference := fun x => x, decoder_inference := fun _ => ([], [], []) }
      { mel := [[[1]]], melPost := [[[2]]], gate := [[3]], align := [[[4]]] }
      (some [0])).align = [[[4]]] ∧
    Tacotron2.parse_output
      { num_mels := 1, mask_padding := true, n_frames_per_step := 1,
        embedding := [], encoder := fun x _ => x,
        decoder := fun _ _ _ => ([], [], []), postnet := fun x => x,
        encoder_inference := fun x => x, decoder_inference := fun _ => ([], [], []) }
      { mel := [[[1]]], melPost := [[[2]]], gate := [[3]], align := [[[4]]] }
      (some [0]) =
      { mel := masked_fill3 [[[1]]]
          (Tacotron2.melMask
            { num_mels := 1, mask_padding := true, n_frames_per_step := 1,
              embedding := [], encoder := fun x _ => x,
              decoder := fun _ _ _ => ([], [], []), postnet := fun x => x,
              encoder_inference := fun x => x,
              decoder_inference := fun _ => ([], [], []) } [0]) 0
        melPost := masked_fill3 [[[2]]]
          (Tacotron2.melMask
            { num_mels := 1, mask_padding := true, n_frames_per_step := 1,
              embedding := [], encoder := fun x _ => x,
              decoder := fun _ _ _ => ([], [], []), postnet := fun x => x,
              encoder_inference := fun x => x,
              decoder_inference := fun _ => ([], [], []) } [0]) 0
        gate := masked_fill2 [[3]]
          (Tacotron2.gateMask
            { num_mels := 1, mask_padding := true, n_frames_per_step := 1,
              embedding := [], encoder := fun x _ => x,
              decoder := fun _ _ _ => ([], [], []), postnet := fun x => x,
              encoder_inference := fun x => x,
              decoder_inference := fun _ => ([], [], []) } [0]) 1000
        align := [[[4]]] } ∧
    Tacotron2.parse_output
      { num_mels := 1, mask_padding := false, n_frames_per_step := 1,
        embedding := [], encoder := fun x _ => x,
        decoder := fun _ _ _ => ([], [], []), postnet := fun x => x,
        encoder_inference := fun x => x, decoder_inference := fun _ => ([], [], []) }
      { mel := [[[1]]], melPost := [[[2]]], gate := [[3]], align := [[[4]]] }
      (some [0]) =
      { mel := [[[1]]], melPost := [[[2]]], gate := [[3]], align := [[[4]]] } := by
  refine ⟨(parse_output_frame_effect _ _ _).1, ?_, ?_⟩
  · exact (parse_output_frame_effect _ _ _).2.1 rfl [0] rfl
  · exact (parse_output_frame_effect _ _ _).2.2 (Or.inl rfl)

/-- Follows the spec's words, for comparison with the code: the
free-running inference pipeline with the decoder and postnet outputs
returned exactly as produced, with no masking applied. -/
def Tacotron2.inference_unmasked (self : Tacotron2) (inputs : List (List Nat)) :
    TacoOutputs :=
  let embedded_inputs := transpose12 (self.embed inputs)
  let encoder_outputs := self.encoder_inference embedded_inputs
  let dec := self.decoder_inference encoder_outputs
  { mel := dec.1, melPost := addT3 dec.1 (self.postnet dec.1),
    gate := dec.2.1, align := dec.2.2 }

/-- C6: `inference` applies no length masking: for every input and every
setting of the padding-mask flag, its result is exactly the unmasked
pipeline output — the mel, postnet-mel, gate and alignment tensors as
produced by the decoder and postnet, unmodified by `parse_output`. -/
theorem inference_applies_no_masking (self : Tacotron2) (inputs : List (List Nat)) :
    self.inference inputs = self.inference_unmasked inputs := rfl

/-- C5: `infer` converts the text through the text-to-sequence
collaborator, wraps the resulting symbol-ID sequence as a length-1 batch,
runs `inference`, and returns exactly the 3-tuple
(mel, mel+postnet, alignments), dropping the gate output; this holds for
every text, in particular for the empty string, and the function is total
(no exception path in the model). -/
theorem infer_returns_mel_postnet_alignments (self : Tacotron2)
    (tts : String → List Nat) (text : String) :
    self.infer tts text =
      ((self.inference [tts text]).mel, (self.inference [tts text]).melPost,
        (self.inference [tts text]).align) := rfl

/-! ### Maximum lemmas for `parse_batch` -/

theorem foldl_max_le (l : List Int) (a : Int) : a ≤ l.foldl max a := by
  induction l generalizing a with
  | nil => exact le_refl a
  | cons b t ih => exact le_trans (le_max_left a b) (ih (max a b))

theorem foldl_max_ub (l : List Int) (a x : Int) (hx : x ∈ l) : x ≤ l.foldl max a := by
  induction l generalizing a with
  | nil => simp at hx
  | cons b t ih =>
    rcases List.mem_cons.mp hx with rfl | hx
    · exact le_trans (le_max_right a x) (foldl_max_le t (max a x))
    · exact ih (max a b) hx

theorem foldl_max_mem (l : List Int) (a : Int) : l.foldl max a = a ∨ l.foldl max a ∈ l := by
  induction l generalizing a with
  | nil => exact Or.inl rfl
  | cons b t ih =>
    rcases ih (max a b) with h | h
    · rcases max_choice a b with hab | hab
      · exact Or.inl (by simpa [hab] using h)
      · exact Or.inr (by simp only [List.foldl_cons]; rw [h, hab]; simp)
    · exact Or.inr (List.mem_cons_of_mem b (by simpa using h))

theorem torch_max_mem (l : List Int) (h : l ≠ []) : torch_max l ∈ l := by
  cases l with
  | nil => exact absurd rfl h
  | cons a t =>
    have : torch_max (a :: t) = t.foldl max a := by
      simp [torch_max]
    rw [this]
    rcases foldl_max_mem t a with h1 | h1
    · rw [h1]; simp
    · exact List.mem_cons_of_mem a h1

theorem torch_max_ub (l : List Int) (x : Int) (hx : x ∈ l) : x ≤ torch_max l := by
  cases l with
  | nil => simp at hx
  | cons a t =>
    have he : torch_max (a :: t) = t.foldl max a := by
      simp [torch_max]
    rw [he]
    rcases List.mem_cons.mp hx with rfl | hx
    · exact foldl_max_le t x
    · exact foldl_max_ub t a x hx

/-- C7: for every 5-tuple batch, `parse_batch` returns the restructured
pair ((text, input lengths, mels, max_len, output lengths),
(mels, gates)), where `max_len` is the maximum of the input lengths (an
element of the list that bounds every element); types and device
placement are value-level coercions and no other validation is
performed. -/
theorem parse_batch_restructures (self : Tacotron2)
    (batch : List (List Int) × List Int × T3 × T2 × List Int)
    (hne : batch.2.1 ≠ []) :
    self.parse_batch batch =
      ((batch.1, batch.2.1, batch.2.2.1, torch_max batch.2.1, batch.2.2.2.2),
        (batch.2.2.1, batch.2.2.2.1)) ∧
    torch_max batch.2.1 ∈ batch.2.1 ∧
    (∀ x ∈ batch.2.1, x ≤ torch_max batch.2.1) :=
  ⟨rfl, torch_max_mem _ hne, fun x hx => torch_max_ub _ x hx⟩

/-- Witness for C7 at a concrete batch: the maximum of the input lengths
[3, 5] is 5 and the tuple is restructured as described. -/
theorem parse_batch_restructures_witness :
    Tacotron2.parse_batch
      { num_mels := 1, mask_padding := false, n_frames_per_step := 1,
        embedding := [], encoder := fun x _ => x,
        decoder := fun _ _ _ => ([], [], []), postnet := fun x => x,
        encoder_inference := fun x => x, decoder_inference := fun _ => ([], [], []) }
      ([[1]], [3, 5], [[[2]]], [[0]], [2]) =
      (([[1]], [3, 5], [[[2]]], torch_max [3, 5], [2]), ([[[2]]], [[0]])) ∧
    torch_max [3, 5] ∈ [(3 : Int), 5] ∧
    (∀ x ∈ [(3 : Int), 5], x ≤ torch_max [3, 5]) := by
  exact parse_batch_restructures _ ([[1]], [3, 5], [[[2]]], [[0]], [2]) (by decide)

/-- C8: for any sampler satisfying the documented range contract of
`uniform_(-val, val)` with `val = sqrt(3) * sqrt(2 / (n_symbols +
symbols_embedding_dim))`, the embedding table built at construction has
size n_symbols × symbols_embedding_dim and every entry lies within the
symmetric interval [-val, val]. -/
theorem embedding_init_within_bounds (n d : Nat) (sample : Nat → Nat → ℝ)
    (hsample : ∀ i j, |sample i j| ≤ Real.sqrt 3 * Real.sqrt (2 / ((n : ℝ) + (d : ℝ)))) :
    (init_embedding n d sample).length = n ∧
    (∀ row ∈ init_embedding n d sample, row.length = d) ∧
    (∀ row ∈ init_embedding n d sample, ∀ e ∈ row,
      |e| ≤ Real.sqrt 3 * Real.sqrt (2 / ((n : ℝ) + (d : ℝ)))) := by
  refine ⟨by simp [init_embedding], ?_, ?_⟩
  · intro row hrow
    simp only [init_embedding, List.mem_map, List.mem_range] at hrow
    obtain ⟨i, hi, rfl⟩ := hrow
    simp
  · intro row hrow e he
    simp only [init_embedding, List.mem_map, List.mem_range] at hrow
    obtain ⟨i, hi, rfl⟩ := hrow
    simp only [List.mem_map, List.mem_range] at he
    obtain ⟨j, hj, rfl⟩ := he
    exact hsample i j

/-- Witness for C8 with the constant-zero sampler at a 2 × 3 table. -/
theorem embedding_init_within_bounds_witness :
    (init_embedding 2 3 (fun _ _ => (0 : ℝ))).length = 2 ∧
    (∀ row ∈ init_embedding 2 3 (fun _ _ => (0 : ℝ)), row.length = 3) ∧
    (∀ row ∈ init_embedding 2 3 (fun _ _ => (0 : ℝ)), ∀ e ∈ row,
      |e| ≤ Real.sqrt 3 * Real.sqrt (2 / (((2 : Nat) : ℝ) + ((3 : Nat) : ℝ)))) := by
  exact embedding_init_within_bounds 2 3 (fun _ _ => 0)
    (fun i j => by rw [abs_zero]; positivity)

/-! ### Sorting lemmas for `teacher_infer` -/

theorem insertDesc_const (L : Nat) (t : List Nat) (h : ∀ x ∈ t, x = L) :
    insertDesc L t = L :: t := by
  induction t with
  | nil => rfl
  | cons b t ih =>
    have hb : b = L := h b (by simp)
    subst hb
    unfold insertDesc
    rw [if_neg (lt_irrefl b), ih (fun x hx => h x (by simp [hx]))]

theorem sortDesc_const (L : Nat) (l : List Nat) (h : ∀ x ∈ l, x = L) :
    sortDesc l = l := by
  induction l with
  | nil => rfl
  | cons a t ih =>
    have ha : a = L := h a (by simp)
    subst ha
    unfold sortDesc
    rw [ih (fun x hx => h x (by simp [hx])), insertDesc_const a t (fun x hx => h x (by simp [hx]))]

/-- Counterexample for C3 as stated: a length-1 (hence sorted,
equal-length) batch with matching mel targets and output lengths for
which `teacher_infer` and `forward` disagree, because `forward` masks its
outputs with the output lengths while `teacher_infer` calls
`parse_output` without lengths and so never masks. -/
theorem teacher_infer_forward_cex :
    Tacotron2.teacher_infer
      { num_mels := 1, mask_padding := true, n_frames_per_step := 2,
        embedding := [[0]], encoder := fun x _ => x,
        decoder := fun _ _ _ => ([[[1, 1]]], [[3]], [[[0]]]),
        postnet := fun _ => [[[5, 5]]],
        encoder_inference := fun x => x, decoder_inference := fun _ => ([], [], []) }
      [[0]] [[[7, 7]]] ≠
    Tacotron2.forward
      { num_mels := 1, mask_padding := true, n_frames_per_step := 2,
        embedding := [[0]], encoder := fun x _ => x,
        decoder := fun _ _ _ => ([[[1, 1]]], [[3]], [[[0]]]),
        postnet := fun _ => [[[5, 5]]],
        encoder_inference := fun x => x, decoder_inference := fun _ => ([], [], []) }
      ([[0]], [1], [[[7, 7]]], 1, [1]) := by
  intro h
  have h2 := congrArg TacoOutputs.melPost h
  norm_num [Tacotron2.teacher_infer, Tacotron2.forward, Tacotron2.embed,
    Tacotron2.parse_output, Tacotron2.melMask, Tacotron2.gateMask, transpose12,
    transposeMat, mode, expandMask, get_mask_from_lengths, maskTime, maxNat,
    masked_fill3, masked_fill2, masked_fill1, addT3, strideSelect, maskChannel0,
    sortDesc, insertDesc, List.range_succ, List.range_zero, Function.comp] at h2

/-- C3 (amended): `teacher_infer` derives its text lengths by sorting the
input lengths descending, which is the identity on an already-sorted
equal-length batch; and whenever the padding-mask flag is disabled — so
that the masking step `forward` additionally applies is the identity —
`teacher_infer(inputs, mels)` returns output identical to `forward` on the
corresponding restructured inputs. -/
theorem teacher_infer_matches_forward_unmasked (self : Tacotron2)
    (inputs : List (List Nat)) (mels : T3) (max_len : Nat) (ol : List Nat) (L : Nat)
    (hmask : self.mask_padding = false)
    (hlen : ∀ x ∈ inputs, x.length = L) :
    self.teacher_infer inputs mels =
      self.forward (inputs, inputs.map List.length, mels, max_len, ol) := by
  have hconst : ∀ x ∈ inputs.map List.length, x = L := by
    intro x hx
    simp only [List.mem_map] at hx
    obtain ⟨y, hy, rfl⟩ := hx
    exact hlen y hy
  have hsort : sortDesc (inputs.map List.length) = inputs.map List.length :=
    sortDesc_const L _ hconst
  simp [Tacotron2.teacher_infer, Tacotron2.forward, Tacotron2.parse_output,
    mode, hsort, hmask]

/-- Witness for C3 (amended) at a concrete model with masking disabled and
an equal-length, already-sorted batch of two sequences. -/
theorem teacher_infer_matches_forward_unmasked_witness :
    Tacotron2.teacher_infer
      { num_mels := 1, mask_padding := false, n_frames_per_step := 2,
        embedding := [[0], [1]], encoder := fun x _ => x,
        decoder := fun _ _ _ => ([[[1, 1]]], [[3]], [[[0]]]),
        postnet := fun _ => [[[5, 5]]],
        encoder_inference := fun x => x, decoder_inference := fun _ => ([], [], []) }
      [[0], [1]] [[[7, 7]]] =
    Tacotron2.forward
      { num_mels := 1, mask_padding := false, n_frames_per_step := 2,
        embedding := [[0], [1]], encoder := fun x _ => x,
        decoder := fun _ _ _ => ([[[1, 1]]], [[3]], [[[0]]]),
        postnet := fun _ => [[[5, 5]]],
        encoder_inference := fun x => x, decoder_inference := fun _ => ([], [], []) }
      ([[0], [1]], [[0], [1]].map List.length, [[[7, 7]]], 1, [1]) := by
  exact teacher_infer_matches_forward_unmasked _ [[0], [1]] [[[7, 7]]] 1 [1] 1 rfl
    (by decide)

/-- Counterexample for C4 as stated: with masking enabled, the second
element returned by `forward` is the masked sum of raw mel and postnet
outputs, which differs from the returned first element plus the postnet
applied to that returned (masked) first element. -/
theorem forward_postnet_residual_cex :
    (Tacotron2.forward
      { num_mels := 1, mask_padding := true, n_frames_per_step := 2,
        embedding := [[0]], encoder := fun x _ => x,
        decoder := fun _ _ _ => ([[[1, 1]]], [[3]], [[[0]]]),
        postnet := fun _ => [[[5, 5]]],
        encoder_inference := fun x => x, decoder_inference := fun _ => ([], [], []) }
      ([[0]], [1], [[[7, 7]]], 1, [1])).melPost ≠
    addT3
      (Tacotron2.forward
        { num_mels := 1, mask_padding := true, n_frames_per_step := 2,
          embedding := [[0]], encoder := fun x _ => x,
          decoder := fun _ _ _ => ([[[1, 1]]], [[3]], [[[0]]]),
          postnet := fun _ => [[[5, 5]]],
          encoder_inference := fun x => x, decoder_inference := fun _ => ([], [], []) }
        ([[0]], [1], [[[7, 7]]], 1, [1])).mel
      (Tacotron2.postnet
        { num_mels := 1, mask_padding := true, n_frames_per_step := 2,
          embedding := [[0]], encoder := fun x _ => x,
          decoder := fun _ _ _ => ([[[1, 1]]], [[3]], [[[0]]]),
          postnet := fun _ => [[[5, 5]]],
          encoder_inference := fun x => x, decoder_inference := fun _ => ([], [], []) }
        (Tacotron2.forward
          { num_mels := 1, mask_padding := true, n_frames_per_step := 2,
            embedding := [[0]], encoder := fun x _ => x,
            decoder := fun _ _ _ => ([[[1, 1]]], [[3]], [[[0]]]),
            postnet := fun _ => [[[5, 5]]],
            encoder_inference := fun x => x, decoder_inference := fun _ => ([], [], []) }
          ([[0]], [1], [[[7, 7]]], 1, [1])).mel) := by
  intro h
  norm_num [Tacotron2.forward, Tacotron2.embed,
    Tacotron2.parse_output, Tacotron2.melMask, Tacotron2.gateMask, transpose12,
    transposeMat, mode, expandMask, get_mask_from_lengths, maskTime, maxNat,
    masked_fill3, masked_fill2, masked_fill1, addT3, strideSelect, maskChannel0,
    List.range_succ, List.range_zero, Function.comp] at h

/-- C4 (amended): `forward` returns the 4-tuple in the order
(mel, mel+postnet, gate, alignments), where the second component is built
as the raw decoder mel output plus the postnet applied to it before
masking; whenever the padding-mask flag is disabled the returned second
element equals the returned first element plus the postnet applied to the
returned first element. -/
theorem forward_postnet_residual_unmasked (self : Tacotron2)
    (inputs : List (List Nat) × List Nat × T3 × Nat × List Nat)
    (mel : T3) (gate : T2) (align : T3)
    (hmask : self.mask_padding = false)
    (hdec : self.decoder (self.encoder (transpose12 (self.embed inputs.1)) inputs.2.1)
      inputs.2.2.1 inputs.2.1 = (mel, gate, align)) :
    self.forward inputs = ⟨mel, addT3 mel (self.postnet mel), gate, align⟩ ∧
    (self.forward inputs).melPost =
      addT3 (self.forward inputs).mel (self.postnet (self.forward inputs).mel) := by
  have h1 : self.forward inputs = ⟨mel, addT3 mel (self.postnet mel), gate, align⟩ := by
    simp only [Tacotron2.forward]
    rw [hdec]
    simp [Tacotron2.parse_output, hmask]
  exact ⟨h1, by rw [h1]⟩

/-- Witness for C4 (amended) at a concrete model with masking disabled. -/
theorem forward_postnet_residual_unmasked_witness :
    Tacotron2.forward
      { num_mels := 1, mask_padding := false, n_frames_per_step := 2,
        embedding := [[0]], encoder := fun x _ => x,
        decoder := fun _ _ _ => ([[[1, 1]]], [[3]], [[[0]]]),
        postnet := fun _ => [[[5, 5]]],
        encoder_inference := fun x => x, decoder_inference := fun _ => ([], [], []) }
      ([[0]], [1], [[[7, 7]]], 1, [1]) =
      ⟨[[[1, 1]]],
        addT3 [[[1, 1]]]
          (Tacotron2.postnet
            { num_mels := 1, mask_padding := false, n_frames_per_step := 2,
              embedding := [[0]], encoder := fun x _ => x,
              decoder := fun _ _ _ => ([[[1, 1]]], [[3]], [[[0]]]),
              postnet := fun _ => [[[5, 5]]],
              encoder_inference := fun x => x,
              decoder_inference := fun _ => ([], [], []) } [[[1, 1]]]),
        [[3]], [[[0]]]⟩ ∧
    (Tacotron2.forward
      { num_mels := 1, mask_padding := false, n_frames_per_step := 2,
        embedding := [[0]], encoder := fun x _ => x,
        decoder := fun _ _ _ => ([[[1, 1]]], [[3]], [[[0]]]),
        postnet := fun _ => [[[5, 5]]],
        encoder_inference := fun x => x, decoder_inference := fun _ => ([], [], []) }
      ([[0]], [1], [[[7, 7]]], 1, [1])).melPost =
      addT3
        (Tacotron2.forward
          { num_mels := 1, mask_padding := false, n_frames_per_step := 2,
            embedding := [[0]], encoder := fun x _ => x,
            decoder := fun _ _ _ => ([[[1, 1]]], [[3]], [[[0]]]),
            postnet := fun _ => [[[5, 5]]],
            encoder_inference := fun x => x, decoder_inference := fun _ => ([], [], []) }
          ([[0]], [1], [[[7, 7]]], 1, [1])).mel
        (Tacotron2.postnet
          { num_mels := 1, mask_padding := false, n_frames_per_step := 2,
            embedding := [[0]], encoder := fun x _ => x,
            decoder := fun _ _ _ => ([[[1, 1]]], [[3]], [[[0]]]),
            postnet := fun _ => [[[5, 5]]],
            encoder_inference := fun x => x, decoder_inference := fun _ => ([], [], []) }
          (Tacotron2.forward
            { num_mels := 1, mask_padding := false, n_frames_per_step := 2,
              embedding := [[0]], encoder := fun x _ => x,
              decoder := fun _ _ _ => ([[[1, 1]]], [[3]], [[[0]]]),
              postnet := fun _ => [[[5, 5]]],
              encoder_inference := fun x => x,
              decoder_inference := fun _ => ([], [], []) }
            ([[0]], [1], [[[7, 7]]], 1, [1])).mel) := by
  exact forward_postnet_residual_unmasked _ ([[0]], [1], [[[7, 7]]], 1, [1])
    [[[1, 1]]] [[3]] [[[0]]] rfl rfl

/-! ### Shape lemmas -/

theorem masked_fill1_length (row : List ℚ) (m : List Bool) (v : ℚ) :
    (masked_fill1 row m v).length = min row.length m.length := by
  simp [masked_fill1]

theorem Shape2_masked_fill2 (x : T2) (m : List (List Bool)) (v : ℚ) (b t : Nat)
    (hx : Shape2 x b t) (hmlen : m.length = b) (hmr : ∀ r ∈ m, r.length = t) :
    Shape2 (masked_fill2 x m v) b t := by
  obtain ⟨hxl, hxr⟩ := hx
  constructor
  · simp [masked_fill2, hxl, hmlen]
  · intro r hr
    obtain ⟨a, mb, ha, hb, rfl⟩ := mem_zipWith hr
    simp [masked_fill1_length, hxr a ha, hmr mb hb]

theorem Shape3_masked_fill3 (x : T3) (m : List (List (List Bool))) (v : ℚ) (b c t : Nat)
    (hx : Shape3 x b c t) (hmlen : m.length = b)
    (hmp : ∀ p ∈ m, p.length = c ∧ ∀ r ∈ p, r.length = t) :
    Shape3 (masked_fill3 x m v) b c t := by
  obtain ⟨hxl, hxp⟩ := hx
  constructor
  · simp [masked_fill3, hxl, hmlen]
  · intro p hp
    obtain ⟨a, mp2, ha, hb, rfl⟩ := mem_zipWith hp
    obtain ⟨hal, har⟩ := hxp a ha
    obtain ⟨hml, hmr⟩ := hmp mp2 hb
    constructor
    · simp [masked_fill2, hal, hml]
    · intro r hr
      obtain ⟨a2, mb2, ha2, hb2, rfl⟩ := mem_zipWith hr
      simp [masked_fill1_length, har a2 ha2, hmr mb2 hb2]

theorem Shape3_addT3 (x y : T3) (b c t : Nat) (hx : Shape3 x b c t)
    (hy : Shape3 y b c t) : Shape3 (addT3 x y) b c t := by
  obtain ⟨hxl, hxp⟩ := hx
  obtain ⟨hyl, hyp⟩ := hy
  constructor
  · simp [addT3, hxl, hyl]
  · intro p hp
    obtain ⟨a, q, ha, hq, rfl⟩ := mem_zipWith hp
    obtain ⟨hal, har⟩ := hxp a ha
    obtain ⟨hql, hqr⟩ := hyp q hq
    constructor
    · simp [hal, hql]
    · intro r hr
      obtain ⟨r1, r2, hr1, hr2, rfl⟩ := mem_zipWith hr
      simp [har r1 hr1, hqr r2 hr2]

theorem melMask_eq_map (self : Tacotron2) (lens : List Nat) :
    self.melMask lens = lens.map (fun l =>
      List.replicate self.num_mels
        (negRow (maskTime lens true self.n_frames_per_step) l)) := by
  simp [Tacotron2.melMask, expandMask, get_mask_from_lengths, negRow, List.map_map]

theorem gateMask_eq_map (self : Tacotron2) (lens : List Nat)
    (hnm : 0 < self.num_mels) :
    self.gateMask lens = lens.map (fun l =>
      strideSelect (negRow (maskTime lens true self.n_frames_per_step) l)
        self.n_frames_per_step) := by
  rw [Tacotron2.gateMask, melMask_eq_map]
  simp only [maskChannel0, List.map_map]
  apply List.map_congr_left
  intro l _
  simp only [Function.comp]
  rw [replicate_headD _ _ _ hnm]

/-- C9: given the decoder and postnet shape contracts (mel tensors of
shape (B, num_mels, T) and gate of shape (B, T / n_frames_per_step), with
T the padded output time length of the batch, i.e. the mask time of the
output lengths), the mel tensors returned by `forward` have shape
(B, num_mels, T) and the returned gate has shape
(B, T / n_frames_per_step), whether or not masking is enabled. -/
theorem forward_output_shapes (self : Tacotron2)
    (inputs : List (List Nat) × List Nat × T3 × Nat × List Nat)
    (mel : T3) (gate : T2) (align : T3) (B T : Nat)
    (hdec : self.decoder (self.encoder (transpose12 (self.embed inputs.1)) inputs.2.1)
      inputs.2.2.1 inputs.2.1 = (mel, gate, align))
    (hs : 0 < self.n_frames_per_step)
    (hnm : 0 < self.num_mels)
    (hB : inputs.2.2.2.2.length = B)
    (hT : maskTime inputs.2.2.2.2 true self.n_frames_per_step = T)
    (hmel : Shape3 mel B self.num_mels T)
    (hpost : Shape3 (self.postnet mel) B self.num_mels T)
    (hgate : Shape2 gate B (T / self.n_frames_per_step)) :
    Shape3 (self.forward inputs).mel B self.num_mels T ∧
    Shape3 (self.forward inputs).melPost B self.num_mels T ∧
    Shape2 (self.forward inputs).gate B (T / self.n_frames_per_step) := by
  have hmelpost : Shape3 (addT3 mel (self.postnet mel)) B self.num_mels T :=
    Shape3_addT3 _ _ _ _ _ hmel hpost
  have hfw : self.forward inputs =
      self.parse_output ⟨mel, addT3 mel (self.postnet mel), gate, align⟩
        (some inputs.2.2.2.2) := by
    simp only [Tacotron2.forward]
    rw [hdec]
  have hmm : ∀ p ∈ self.melMask inputs.2.2.2.2, p.length = self.num_mels ∧
      ∀ r ∈ p, r.length = T := by
    intro p hp
    rw [melMask_eq_map] at hp
    simp only [List.mem_map] at hp
    obtain ⟨l, _, rfl⟩ := hp
    refine ⟨by simp, ?_⟩
    intro r hr
    rw [List.eq_of_mem_replicate hr, negRow_length, hT]
  have hmml : (self.melMask inputs.2.2.2.2).length = B := by
    rw [melMask_length, hB]
  have hgm : ∀ r ∈ self.gateMask inputs.2.2.2.2,
      r.length = T / self.n_frames_per_step := by
    intro r hr
    rw [gateMask_eq_map _ _ hnm] at hr
    simp only [List.mem_map] at hr
    obtain ⟨l, _, rfl⟩ := hr
    rw [strideSelect_length, negRow_length, hT,
      ceilDiv_of_dvd _ _ hs (hT ▸ maskTime_dvd inputs.2.2.2.2 _ hs)]
  have hgml : (self.gateMask inputs.2.2.2.2).length = B := by
    rw [gateMask_length, hB]
  rw [hfw]
  by_cases hm : self.mask_padding
  · have hpo : self.parse_output ⟨mel, addT3 mel (self.postnet mel), gate, align⟩
        (some inputs.2.2.2.2) =
        { mel := masked_fill3 mel (self.melMask inputs.2.2.2.2) 0
          melPost := masked_fill3 (addT3 mel (self.postnet mel))
            (self.melMask inputs.2.2.2.2) 0
          gate := masked_fill2 gate (self.gateMask inputs.2.2.2.2) 1000
          align := align } := by
      simp [Tacotron2.parse_output, hm]
    rw [hpo]
    exact ⟨Shape3_masked_fill3 _ _ _ _ _ _ hmel hmml hmm,
      Shape3_masked_fill3 _ _ _ _ _ _ hmelpost hmml hmm,
      Shape2_masked_fill2 _ _ _ _ _ hgate hgml hgm⟩
  · have hm' : self.mask_padding = false := by simpa using hm
    have hpo : self.parse_output ⟨mel, addT3 mel (self.postnet mel), gate, align⟩
        (some inputs.2.2.2.2) =
        ⟨mel, addT3 mel (self.postnet mel), gate, align⟩ := by
      simp [Tacotron2.parse_output, hm']
    rw [hpo]
    exact ⟨hmel, hmelpost, hgate⟩

/-- Witness for C9 at a concrete model with B = 1, one mel channel,
frame step 1 and padded time length 1. -/
theorem forward_output_shapes_witness :
    Shape3 (Tacotron2.forward
      { num_mels := 1, mask_padding := true, n_frames_per_step := 1,
        embedding := [[0]], encoder := fun x _ => x,
        decoder := fun _ _ _ => ([[[2]]], [[3]], [[[0]]]),
        postnet := fun _ => [[[4]]],
        encoder_inference := fun x => x, decoder_inference := fun _ => ([], [], []) }
      ([[0]], [1], [[[7]]], 1, [1])).mel 1 1 1 ∧
    Shape3 (Tacotron2.forward
      { num_mels := 1, mask_padding := true, n_frames_per_step := 1,
        embedding := [[0]], encoder := fun x _ => x,
        decoder := fun _ _ _ => ([[[2]]], [[3]], [[[0]]]),
        postnet := fun _ => [[[4]]],
        encoder_inference := fun x => x, decoder_inference := fun _ => ([], [], []) }
      ([[0]], [1], [[[7]]], 1, [1])).melPost 1 1 1 ∧
    Shape2 (Tacotron2.forward
      { num_mels := 1, mask_padding := true, n_frames_per_step := 1,
        embedding := [[0]], encoder := fun x _ => x,
        decoder := fun _ _ _ => ([[[2]]], [[3]], [[[0]]]),
        postnet := fun _ => [[[4]]],
        encoder_inference := fun x => x, decoder_inference := fun _ => ([], [], []) }
      ([[0]], [1], [[[7]]], 1, [1])).gate 1 1 := by
  have h := forward_output_shapes
    { num_mels := 1, mask_padding := true, n_frames_per_step := 1,
      embedding := [[0]], encoder := fun x _ => x,
      decoder := fun _ _ _ => ([[[2]]], [[3]], [[[0]]]),
      postnet := fun _ => [[[4]]],
      encoder_inference := fun x => x, decoder_inference := fun _ => ([], [], []) }
    ([[0]], [1], [[[7]]], 1, [1]) [[[2]]] [[3]] [[[0]]] 1 1 rfl
    (by decide) (by decide) (by decide) (by decide) (by decide) (by decide)
    (by decide)
  exact h
